import Mathlib

/-!
Shallow embedding of the structural diff engine of `mdb-python3-api`:
`mdb/tools/diff_calculator.py` (`Diff`, `Differ`),
`mdbclient/tools/diff_functions.py` (`FieldDiffResult`, `categories_changes`)
and `mdbclient/tools/eo_fixup.py` (deduplication).

Records are Python dicts whose keys are strings.  We model one record as a
structure holding its flat primitive attributes (an ordered association list,
mirroring a Python dict) together with the four tracked collection fields
("contributors", "categories", "subjects", "spatials"); the Python dict is the
union of the two parts, so well-formedness (attribute keys distinct and
disjoint from the collection names) appears as a hypothesis where a theorem
depends on it.  Python floats are modelled as rationals plus an explicit NaN
value, so that `x != x` on NaN and `math.isclose` keep their Python behaviour.
Fallible code (`raise`) is modelled with `Except String`.
-/

namespace MdbDiff

/-- Python float values as they matter to the differ: a finite value (carried
exactly as a rational) or NaN.  `str`/`repr` rounding plays no role in any
comparison the code performs. -/
inductive FNum where
  | nan : FNum
  | val : ℚ → FNum
deriving DecidableEq, Repr

/-- Python `==` on two floats: NaN is not equal to anything, finite values
compare numerically. -/
def fnumEq : FNum → FNum → Bool
  | .val a, .val b => a == b
  | _, _ => false

/-- Source `math.isclose(a, b)` with the default `rel_tol=1e-9`, `abs_tol=0.0`
(CPython first tests `a == b`, then the tolerance formula).  NaN is close to
nothing. -/
def isclose : FNum → FNum → Bool
  | .val a, .val b => a == b || |a - b| ≤ (1 / 1000000000 : ℚ) * max |a| |b|
  | _, _ => false

/-- Primitive attribute values: the types `is_accepted_type` admits
(str/int/float, with bool a subtype of int in Python) plus JSON null. -/
inductive Prim where
  | s : String → Prim
  | i : Int → Prim
  | f : FNum → Prim
  | b : Bool → Prim
  | nullv : Prim
deriving DecidableEq, Repr

/-- Numeric view of a primitive: Python compares bool/int/float numerically. -/
def Prim.num? : Prim → Option FNum
  | .i n => some (.val n)
  | .f x => some x
  | .b a => some (.val (if a then 1 else 0))
  | _ => none

/-- Python `==` on primitive values (numeric types compare across kinds,
NaN is unequal to itself). -/
def primEq (a b : Prim) : Bool :=
  match a.num?, b.num? with
  | some x, some y => fnumEq x y
  | _, _ =>
    match a, b with
    | .s x, .s y => x == y
    | .nullv, .nullv => true
    | _, _ => false

/-- The `contact` sub-dict of a contributor. -/
structure Contact where
  title : Option String := none
  characterName : Option String := none
  comment : Option String := none
  capacity : Option String := none
deriving DecidableEq, Repr

/-- The `role` sub-dict of a contributor. -/
structure Role where
  resId : Option String := none
  title : Option String := none
deriving DecidableEq, Repr

/-- The `stadnamn` sub-dict of a spatial. -/
structure Stadnamn where
  resId : Option String := none
deriving DecidableEq, Repr

/-- One collection item (a Python dict).  A single type covers contributors,
categories, subjects and spatials: the comparators and key functions read
whichever keys they need and treat an absent key as `None` (via `.get`), which
`Option` models.  A field is `none` exactly when the key is absent. -/
structure Item where
  resId : Option String := none
  contact : Option Contact := none
  role : Option Role := none
  characterName : Option String := none
  comment : Option String := none
  capacity : Option String := none
  name : Option String := none
  latitude : Option FNum := none
  longitude : Option FNum := none
  stadnamn : Option Stadnamn := none
  resource : Option String := none
  title : Option String := none
deriving DecidableEq, Repr

/-- Python truthiness of an item dict: truthy iff non-empty (some key
present). -/
def Item.isTruthy (x : Item) : Bool :=
  x.resId.isSome || x.contact.isSome || x.role.isSome || x.characterName.isSome ||
  x.comment.isSome || x.capacity.isSome || x.name.isSome || x.latitude.isSome ||
  x.longitude.isSome || x.stadnamn.isSome || x.resource.isSome || x.title.isSome

/-- A record (editorial object): flat primitive attributes plus the four
tracked collection fields.  A collection field is `none` when the key is
absent from the dict. -/
structure Record where
  attrs : List (String × Prim) := []
  contributors : Option (List Item) := none
  categories : Option (List Item) := none
  subjects : Option (List Item) := none
  spatials : Option (List Item) := none
deriving DecidableEq, Repr

/-- A value stored in one of the three mappings of a `Diff`: a primitive (from
the attribute differ) or a list of item-or-`None` entries (from the collection
differ; `Added` lists carry no `None`). -/
inductive DVal where
  | prim : Prim → DVal
  | list : List (Option Item) → DVal
deriving DecidableEq, Repr

/-- First value stored under key `k` (Python `d.get(k)` / `k in d`). -/
def dget {β : Type} : List (String × β) → String → Option β
  | [], _ => none
  | kv :: rest, k => if kv.1 == k then some kv.2 else dget rest k

/-- Python `d[k] = v`: replace the value at an existing key in place, else
append the new entry (dict insertion order). -/
def dictSet (m : List (String × DVal)) (k : String) (v : DVal) : List (String × DVal) :=
  match m with
  | [] => [(k, v)]
  | kv :: rest => if kv.1 == k then (k, v) :: rest else kv :: dictSet rest k v

/-- Python `del d[k]` for the keys this code deletes (all present, unique in a
dict): drop the entries with key `k`. -/
def dictDel {β : Type} (m : List (String × β)) (k : String) : List (String × β) :=
  m.filter (fun kv => kv.1 != k)

/-- The three mappings of the diff aggregate (`mdb/tools/diff_calculator.py`,
class `Diff`). -/
structure Diff where
  Added : List (String × DVal) := []
  Removed : List (String × DVal) := []
  Modified : List (String × DVal) := []
deriving DecidableEq, Repr

/-- Source `Diff.has_diff`: truthiness of `Modified or Added or Removed`. -/
def Diff.has_diff (d : Diff) : Bool :=
  !d.Modified.isEmpty || !d.Added.isEmpty || !d.Removed.isEmpty

/-- One step of `Diff.add_to_*`'s loop body after the key is known to be
present: append `e` to the list stored at `name`.  (On a non-list value Python
would raise `AttributeError`; `Differ.calculate` never reaches that case for
well-formed records, and we leave the entry unchanged there.) -/
def appendElem : List (String × DVal) → String → Option Item → List (String × DVal)
  | [], _, _ => []
  | kv :: rest, name, e =>
    if kv.1 == name then
      (match kv.2 with
       | .list l => (kv.1, .list (l ++ [e]))
       | v => (kv.1, v)) :: rest
    else kv :: appendElem rest name e

/-- Source `Diff.add_to_added` / `add_to_modified` / `add_to_removed`: for each
element, create an empty list under `name` if the key is missing, then append
the element. -/
def add_elements (m : List (String × DVal)) (name : String) :
    List (Option Item) → List (String × DVal)
  | [] => m
  | e :: es =>
    let m1 := if (dget m name).isSome then m else m ++ [(name, .list [])]
    add_elements (appendElem m1 name e) name es

/-- Truthiness of one entry of a modified/removed list: `None` is falsy, an
item is truthy iff its dict is non-empty. -/
def entryTruthy : Option Item → Bool
  | none => false
  | some x => x.isTruthy

/-- A `Diff` value whose list contains no truthy element (`__pack_change`'s
deletion test; primitives are not lists and never qualify). -/
def untruthyList : DVal → Bool
  | .list l => (l.filter entryTruthy).isEmpty
  | .prim _ => false

/-- Source `Diff.__pack_change`: collect the keys of list-valued entries with no
truthy element, then delete them. -/
def pack_change (m : List (String × DVal)) : List (String × DVal) :=
  let todelete := (m.filter (fun kv => untruthyList kv.2)).map Prod.fst
  todelete.foldl (fun acc k => acc.filter (fun kv => kv.1 != k)) m

/-- Source `Diff.pack`. -/
def Diff.pack (d : Diff) : Diff :=
  { Added := pack_change d.Added
    Removed := pack_change d.Removed
    Modified := pack_change d.Modified }

/-- Source `Diff.eliminiate_changed_categories` (sic).  The middle branch tests for
the literal key `"modified"` in `Modified` and then deletes `"categories"`,
which raises `KeyError` when that key is absent. -/
def Diff.eliminiate_changed_categories (d : Diff) : Except String Diff :=
  let added := if (dget d.Added "categories").isSome then dictDel d.Added "categories" else d.Added
  if (dget d.Modified "modified").isSome then
    if (dget d.Modified "categories").isSome then
      let modified := dictDel d.Modified "categories"
      let removed :=
        if (dget d.Removed "categories").isSome then dictDel d.Removed "categories" else d.Removed
      .ok { Added := added, Removed := removed, Modified := modified }
    else .error "KeyError: categories"
  else
    let removed :=
      if (dget d.Removed "categories").isSome then dictDel d.Removed "categories" else d.Removed
    .ok { Added := added, Removed := removed, Modified := d.Modified }

/-- Python truthiness of an optional string (`None` and `""` are falsy). -/
def truthyS : Option String → Bool
  | none => false
  | some s => s != ""

/-- Python truthiness of an optional float (`None` and `0.0` are falsy; NaN is
truthy). -/
def truthyF : Option FNum → Bool
  | none => false
  | some .nan => true
  | some (.val q) => q != 0

/-- Source `math.isnan` on a value known to be truthy (so present). -/
def isnanO : Option FNum → Bool
  | some .nan => true
  | _ => false

/-- Source `Differ.are_same_coordinate`. -/
def are_same_coordinate (existing coord : Option FNum) : Bool :=
  if !truthyF existing && !truthyF coord then true
  else if !truthyF existing || !truthyF coord then false
  else
    match existing, coord with
    | some a, some b => isclose a b
    | _, _ => false

/-- Source `Differ.are_same_lat_lon`. -/
def are_same_lat_lon (p1 p2 : Item) : Bool :=
  are_same_coordinate p1.latitude p2.latitude && are_same_coordinate p1.longitude p2.longitude

/-- Source `Differ.are_same_spatial`. -/
def are_same_spatial (existing coord_ : Item) : Bool :=
  let e_name := existing.name
  let c_name := coord_.name
  if truthyS e_name && e_name == c_name then true
  else if truthyS e_name && e_name != c_name then false
  else are_same_lat_lon existing coord_

/-- Source `Differ.is_spatial`.  The source reads `"longitude"` into both `lat` and
`lon` (line 331), so the latitude key never takes part. -/
def is_spatial (spatial : Item) : Bool :=
  let lon := spatial.longitude
  let lat := spatial.longitude
  truthyS spatial.name || (truthyF lat && truthyF lon && !isnanO lat && !isnanO lon)

/-- Source `Differ.__spatial_value_identity_comparator`. -/
def spatial_value_identity_comparator (original modified : Item) : Bool :=
  are_same_spatial original modified

/-- Source `Differ.__spatial_value_equals`.  Its `has_same_spatial(existing, s)` call
iterates `existing.get("spatials", [])`; a collection item carries no
`"spatials"` key, so that lookup yields `[]` and the filter is empty. -/
def spatial_value_equals (existing s : Item) : Bool :=
  is_spatial s && (([] : List Item).filter (fun x => are_same_spatial x s)).isEmpty &&
    (existing.stadnamn.bind Stadnamn.resId == s.stadnamn.bind Stadnamn.resId)

/-- Source `Differ.__category_reference_equals` (keyed on `"resource"`). -/
def category_reference_equals (existing modified : Item) : Bool :=
  existing.resource == modified.resource

/-- Source `Differ.__category_value_equals`. -/
def category_value_equals (existing modified : Item) : Bool :=
  existing.title == modified.title

/-- Source `Differ.__subject_value_equals`. -/
def subject_value_equals (cat subject : Item) : Bool :=
  cat.title == subject.title

/-- Source `Differ.__contributor_value_based_identity`. -/
def contributor_value_based_identity (c1 c2 : Item) : Bool :=
  (c1.contact.bind Contact.title == c2.contact.bind Contact.title) &&
  (c1.role.bind Role.title == c2.role.bind Role.title)

/-- Source `Differ.__contributor_value_equals`. -/
def contributor_value_equals (c1 c2 : Item) : Bool :=
  (c1.contact.bind Contact.title == c2.contact.bind Contact.title) &&
  (c1.contact.bind Contact.characterName == c2.contact.bind Contact.characterName) &&
  (c1.contact.bind Contact.comment == c2.contact.bind Contact.comment) &&
  (c1.contact.bind Contact.capacity == c2.contact.bind Contact.capacity) &&
  (c1.role.bind Role.resId == c2.role.bind Role.resId) &&
  (c1.role.bind Role.title == c2.role.bind Role.title)

/-- The default ignorable attribute names set in `Differ.__init__`. -/
def default_ignorables : List String :=
  ["title", "shortDescription", "published", "embeddingAllowed", "duration"]

/-- Source `should_process` inside `Differ.attribute_changes`. -/
def should_process (attr_name : String) : Bool :=
  attr_name != "resId" && attr_name != "created" && attr_name != "lastUpdated" &&
    !default_ignorables.contains attr_name

/-- Source `is_accepted_type` inside `Differ.attribute_changes`: str/int/float (bools
are ints in Python); `None` is not accepted. -/
def is_accepted_type : Prim → Bool
  | .nullv => false
  | _ => true

/-- Write a batch of attribute entries into one diff mapping in order
(`self.diff.X[key] = value` per key). -/
def setAll (m : List (String × DVal)) (ps : List (String × Prim)) : List (String × DVal) :=
  ps.foldl (fun acc p => dictSet acc p.1 (.prim p.2)) m

/-- Keys of `existing.attrs` that `is_modified` selects, paired with the value
from `modified` (the `.getD kv.2` fallback is unreachable: the filter demands
the key be present in `modified`). -/
def modPairs (existing modified : Record) : List (String × Prim) :=
  ((existing.attrs.filter (fun kv =>
      should_process kv.1 && is_accepted_type kv.2 &&
        (match dget modified.attrs kv.1 with
         | some mv => !primEq mv kv.2
         | none => false))).map
    (fun kv => (kv.1, (dget modified.attrs kv.1).getD kv.2)))

/-- Keys only in `modified` that the attribute differ adds. -/
def addPairs (existing modified : Record) : List (String × Prim) :=
  modified.attrs.filter (fun kv =>
    should_process kv.1 && (dget existing.attrs kv.1).isNone && is_accepted_type kv.2)

/-- Keys only in `existing` that the attribute differ removes. -/
def remPairs (existing modified : Record) : List (String × Prim) :=
  existing.attrs.filter (fun kv =>
    (dget modified.attrs kv.1).isNone && is_accepted_type kv.2 && should_process kv.1)

/-- Source `Differ.attribute_changes`: three loops writing into `Modified`, `Added`
and `Removed` respectively (each loop touches only its own mapping). -/
def attribute_changes (existing modified : Record) (d : Diff) : Diff :=
  { Added := setAll d.Added (addPairs existing modified)
    Removed := setAll d.Removed (remPairs existing modified)
    Modified := setAll d.Modified (modPairs existing modified) }

/-- Source `self.existing.get(field, [])` for the four tracked collection fields. -/
def getColl (r : Record) (field : String) : List Item :=
  if field == "contributors" then r.contributors.getD []
  else if field == "categories" then r.categories.getD []
  else if field == "subjects" then r.subjects.getD []
  else if field == "spatials" then r.spatials.getD []
  else []

/-- Source `find` inside `_apply_changes_editorial_object_collections`. -/
def find (collection : List Item) (comparator : Item → Item → Bool) (modified_ : Item) :
    List Item :=
  collection.filter (fun cat => comparator cat modified_)

/-- Source `has_valued_element` on a list of items. -/
def hasValuedI (coll : List Item) : Bool :=
  !(coll.filter Item.isTruthy).isEmpty

/-- Source `has_valued_element` on a modified/removed list (entries may be `None`). -/
def hasValued (coll : List (Option Item)) : Bool :=
  !(coll.filter entryTruthy).isEmpty

/-- Source `added_items` of `handle_collections`. -/
def added_items (existing modified : Record) (field : String)
    (refEq : Item → Item → Bool) : List Item :=
  (getColl modified field).filter (fun c => (find (getColl existing field) refEq c).isEmpty)

/-- Source `modified_items` of `handle_collections`: positionally over the existing
collection, the first identity-matching but value-differing element of the
modified collection, else `None` (`find(...)[0] if find(...) else None`). -/
def modified_items (existing modified : Record) (field : String)
    (refEq valEq : Item → Item → Bool) : List (Option Item) :=
  let is_updated_x := fun ex modified_ => refEq ex modified_ && !valEq ex modified_
  (getColl existing field).map
    (fun modified_elem => (find (getColl modified field) is_updated_x modified_elem).head?)

/-- Source `removed_items` of `handle_collections`. -/
def removed_items (existing modified : Record) (field : String)
    (refEq : Item → Item → Bool) : List (Option Item) :=
  (getColl existing field).map
    (fun ex => if (find (getColl modified field) refEq ex).isEmpty then some ex else none)

/-- First block of `handle_collections`: merge `added_items` when it has a
truthy element. -/
def merge_added (existing modified : Record) (d : Diff) (field : String)
    (refEq : Item → Item → Bool) : Diff :=
  if hasValuedI (added_items existing modified field refEq) then
    { d with
      Added := add_elements d.Added field ((added_items existing modified field refEq).map some) }
  else d

/-- Second block of `handle_collections`: merge `modified_items` when it has a
truthy element. -/
def merge_modified (existing modified : Record) (d : Diff) (field : String)
    (refEq valEq : Item → Item → Bool) : Diff :=
  if hasValued (modified_items existing modified field refEq valEq) then
    { d with
      Modified :=
        add_elements d.Modified field (modified_items existing modified field refEq valEq) }
  else d

/-- Third block of `handle_collections`: merge `removed_items` when it has a
truthy element. -/
def merge_removed (existing modified : Record) (d : Diff) (field : String)
    (refEq : Item → Item → Bool) : Diff :=
  if hasValued (removed_items existing modified field refEq) then
    { d with
      Removed := add_elements d.Removed field (removed_items existing modified field refEq) }
  else d

/-- Source `handle_collections` inside `_apply_changes_editorial_object_collections`:
the three blocks run in source order; each outcome list is merged only when it
has a truthy element. -/
def handle_collections (existing modified : Record) (d : Diff) (field : String)
    (refEq valEq : Item → Item → Bool) : Diff :=
  merge_removed existing modified
    (merge_modified existing modified
      (merge_added existing modified d field refEq) field refEq valEq)
    field refEq

/-- Source `Differ._apply_changes_editorial_object_collections` with the comparator
fields set in `Differ.__init__`. -/
def apply_changes_collections (existing modified : Record) (d : Diff) : Diff :=
  let d := handle_collections existing modified d "contributors"
    contributor_value_based_identity contributor_value_equals
  let d := handle_collections existing modified d "categories"
    category_reference_equals category_value_equals
  let d := handle_collections existing modified d "subjects"
    subject_value_equals subject_value_equals
  handle_collections existing modified d "spatials"
    spatial_value_identity_comparator spatial_value_equals

/-- Source `Differ(existing, modified).calculate()` with the default comparators and
ignorables. -/
def calculate (existing modified : Record) : Diff :=
  apply_changes_collections existing modified (attribute_changes existing modified {})

/-! `mdbclient/tools/eo_fixup.py` -/

/-- Whether `needle` is a prefix of the character list. -/
def listPref : List Char → List Char → Bool
  | [], _ => true
  | _ :: _, [] => false
  | a :: as, b :: bs => a == b && listPref as bs

/-- Whether `needle` occurs as a contiguous substring of the character list (Python
`needle in hay`). -/
def listSub (needle : List Char) : List Char → Bool
  | [] => listPref needle []
  | b :: bs => listPref needle (b :: bs) || listSub needle bs

/-- Python `needle in hay` on strings. -/
def strContains (hay needle : String) : Bool :=
  listSub needle.data hay.data

/-- Source `eo_fixup.__key`: the contributor content key (contact title, role title,
top-level characterName, comment and capacity, joined with `:`); raises when
the role resId (default `""`) contains `rest_client`. -/
def contribKey (item : Item) : Except String String :=
  if strContains ((item.role.bind Role.resId).getD "") "rest_client" then
    .error "client generated role resid"
  else
    .ok (String.intercalate ":" [(item.contact.bind Contact.title).getD "",
      (item.role.bind Role.title).getD "",
      item.characterName.getD "", item.comment.getD "", item.capacity.getD ""])

/-- The condition under which `eo_fixup.__key` raises. -/
def hasClientRoleId (item : Item) : Bool :=
  strContains ((item.role.bind Role.resId).getD "") "rest_client"

/-- Source `eo_fixup._spatials_key` (no raise; `str` of a float stands in as decimal
text, which no theorem depends on). -/
def strOfFNum : FNum → String
  | .nan => "nan"
  | .val q => toString q

/-- Source `eo_fixup._spatials_key`. -/
def spatials_key (item : Item) : String :=
  String.intercalate ":" [item.name.getD "NNAME",
    (item.latitude.map strOfFNum).getD "NLAT",
    (item.longitude.map strOfFNum).getD "NLON"]

/-- The loop of `eo_fixup.squash_by_key`: the key function runs on every item
in order; the first item kept per distinct key. -/
def squash_go (kf : Item → Except String String) :
    List Item → List String → List Item → Except String (List Item)
  | [], _, revised => .ok revised
  | item :: rest, seen, revised =>
    match kf item with
    | .error e => .error e
    | .ok key =>
      if seen.contains key then squash_go kf rest seen revised
      else squash_go kf rest (key :: seen) (revised ++ [item])

/-- Source `eo_fixup.squash_by_key`. -/
def squash_by_key (collection : List Item) (kf : Item → Except String String) :
    Except String (List Item) :=
  squash_go kf collection [] []

/-- Source `eo_fixup.squash_byvalue_equal_contributors`. -/
def squash_byvalue_equal_contributors (contributors : List Item) : Except String (List Item) :=
  squash_by_key contributors contribKey

/-- Source `eo_fixup.squash_byvalue_equal_spatials` (defined in the source but not
called by `remove_duplicates`). -/
def squash_byvalue_equal_spatials (spatials : List Item) : Except String (List Item) :=
  squash_by_key spatials (fun it => .ok (spatials_key it))

/-- Source `eo_fixup.remove_duplicates`: first the contributors block, then the
spatials block, either exception propagating.  The source squashes both
collections with `squash_byvalue_equal_contributors` — the spatials branch
also uses the contributor key function. -/
def remove_duplicates (pe : Record) : Except String Record :=
  match pe.contributors with
  | some cs =>
    match squash_byvalue_equal_contributors cs with
    | .error e => .error e
    | .ok cs2 =>
      match pe.spatials with
      | some sps =>
        match squash_byvalue_equal_contributors sps with
        | .error e => .error e
        | .ok sps2 => .ok { pe with contributors := some cs2, spatials := some sps2 }
      | none => .ok { pe with contributors := some cs2 }
  | none =>
    match pe.spatials with
    | some sps =>
      match squash_byvalue_equal_contributors sps with
      | .error e => .error e
      | .ok sps2 => .ok { pe with spatials := some sps2 }
    | none => .ok pe

/-- Whether an `Except` result is a raised exception. -/
def isErr {α : Type} : Except String α → Bool
  | .error _ => true
  | .ok _ => false

/-! `mdbclient/tools/diff_functions.py` -/

/-- Source `FieldDiffResult` as `categories_changes` builds it: each slot is `None`
or an outcome list. -/
structure FieldDiffResult where
  field_name : Option String := none
  added : Option (List (Option Item)) := none
  modified : Option (List (Option Item)) := none
  removed : Option (List (Option Item)) := none
deriving DecidableEq, Repr

/-- Truthiness of one slot: `None` is falsy, a list is truthy iff non-empty. -/
def slotTruthy : Option (List (Option Item)) → Bool
  | none => false
  | some l => !l.isEmpty

/-- Source `FieldDiffResult.has_diff`. -/
def FieldDiffResult.has_diff (fd : FieldDiffResult) : Bool :=
  slotTruthy fd.modified || slotTruthy fd.added || slotTruthy fd.removed

/-- Source `diff_functions.__category_reference_equals` (keyed on `"resId"`, unlike
the `Differ` one). -/
def df_category_reference_equals (existing modified : Item) : Bool :=
  existing.resId == modified.resId

/-- Source `diff_functions.__category_value_equals`. -/
def df_category_value_equals (existing modified : Item) : Bool :=
  existing.title == modified.title

/-- Python truthiness of a record dict handed to `has_valued_element`:
iterating a dict yields its keys, and a key is truthy iff it is a non-empty
string (collection keys are the non-empty literals). -/
def recordTruthyKeys (r : Record) : Bool :=
  r.attrs.any (fun kv => kv.1 != "") || r.contributors.isSome || r.categories.isSome ||
    r.subjects.isSome || r.spatials.isSome

/-- Source `diff_functions.categories_changes` with the default comparators.  The
modified slot is guarded by `has_valued_element(modified)` — the *record*
argument, not `modified_items` (source line 142). -/
def categories_changes (existing modified : Record) : FieldDiffResult :=
  let ec := existing.categories.getD []
  let mc := modified.categories.getD []
  let adds := mc.filter (fun c => (find ec df_category_reference_equals c).isEmpty)
  let is_updated_x := fun ex modified_ =>
    df_category_reference_equals ex modified_ && !df_category_value_equals ex modified_
  let mods := ec.map (fun modified_elem => (find mc is_updated_x modified_elem).head?)
  let rems := ec.map
    (fun ex => if (find mc df_category_reference_equals ex).isEmpty then some ex else none)
  { field_name := some "categories"
    added := if hasValuedI adds then some (adds.map some) else none
    modified := if recordTruthyKeys modified then some mods else none
    removed := if hasValued rems then some rems else none }

/-- The four tracked collection field names, in the order `calculate` handles
them. -/
def tracked_fields : List String :=
  ["contributors", "categories", "subjects", "spatials"]

/-- Identity comparator `Differ.__init__` assigns to a tracked field. -/
def field_identity_comparator (field : String) : Item → Item → Bool :=
  if field == "contributors" then contributor_value_based_identity
  else if field == "categories" then category_reference_equals
  else if field == "subjects" then subject_value_equals
  else spatial_value_identity_comparator

/-- Value comparator `Differ.__init__` assigns to a tracked field. -/
def field_value_comparator (field : String) : Item → Item → Bool :=
  if field == "contributors" then contributor_value_equals
  else if field == "categories" then category_value_equals
  else if field == "subjects" then subject_value_equals
  else spatial_value_equals

/-- Well-formedness of a record as a Python dict: no flat attribute uses one
of the tracked collection names as its key. -/
def noCollAttrs (r : Record) : Prop :=
  ∀ kv ∈ r.attrs, ¬ kv.1 ∈ tracked_fields

instance (r : Record) : Decidable (noCollAttrs r) := by
  unfold noCollAttrs; infer_instance

/-- The keys of a diff mapping or attribute dict are pairwise distinct (always
true of a Python dict). -/
def nodupKeys {β : Type} (m : List (String × β)) : Prop :=
  (m.map Prod.fst).Nodup

instance {β : Type} [DecidableEq β] (m : List (String × β)) : Decidable (nodupKeys m) := by
  unfold nodupKeys; infer_instance

/-! Concrete sample inputs used by the witness and counterexample theorems
below. -/

/-- Witness record for the alignment invariant: one subject. -/
def recC1e : Record :=
  { attrs := [("x", .s "1")], subjects := some [{ title := some "a" }] }

/-- Witness record for the alignment invariant: the subject retitled. -/
def recC1m : Record :=
  { attrs := [("x", .s "1")], subjects := some [{ title := some "b" }] }

/-- A contributor: contact title `T`, role title `R`, role resId `r1`. -/
def contribR1 : Item :=
  { contact := some { title := some "T" }, role := some { resId := some "r1", title := some "R" } }

/-- Same identity (contact title and role title) as `contribR1` but role resId
`r2`. -/
def contribR2 : Item :=
  { contact := some { title := some "T" }, role := some { resId := some "r2", title := some "R" } }

/-- Record holding two identity-equal but value-different contributors. -/
def recC2 : Record := { contributors := some [contribR1, contribR2] }

/-- A record exercising all four collections and one attribute, with no
duplicate identities. -/
def recC2w : Record :=
  { attrs := [("x", .s "v")]
    contributors := some [contribR1]
    categories := some [{ resource := some "r", title := some "t" }]
    subjects := some [{ title := some "s" }]
    spatials := some [{ name := some "Oslo" }] }

/-- The spec scenario's original record: `{title: "foo", baz: "bazt"}`. -/
def recC3o : Record := { attrs := [("title", .s "foo"), ("baz", .s "bazt")] }

/-- The spec scenario's modified record: `{baz: "bazz", fizz: "buzz"}`. -/
def recC3m : Record := { attrs := [("baz", .s "bazz"), ("fizz", .s "buzz")] }

/-- A spatial named Oslo, nothing else. -/
def spatialOslo : Item := { name := some "Oslo" }

/-- A spatial named Bergen, nothing else. -/
def spatialBergen : Item := { name := some "Bergen" }

/-- A record with two spatials with distinct dedup keys. -/
def recC4 : Record := { spatials := some [spatialOslo, spatialBergen] }

/-- A record whose single category is unchanged between the two sides. -/
def recC5 : Record := { categories := some [{ resId := some "r1", title := some "t" }] }

/-- A diff holding one empty-string (falsy, non-list) attribute value. -/
def diffC6 : Diff := { Modified := [("a", .prim (.s ""))] }

/-- A diff exercising both pack cases: an all-`None` list, a truthy list and
an empty-string primitive. -/
def diffC6w : Diff :=
  { Added := [("a", .list [none]), ("b", .list [some { title := some "t" }])]
    Modified := [("c", .prim (.s ""))]
    Removed := [] }

/-- Original record for the subjects remove+add scenario. -/
def recC7e : Record :=
  { subjects := some [{ title := some "a" }, { title := some "k" }] }

/-- Modified record for the subjects remove+add scenario: first subject
retitled, second kept. -/
def recC7m : Record :=
  { subjects := some [{ title := some "b" }, { title := some "k" }] }

/-- A contributor whose role resId is a client-generated placeholder. -/
def contribClient : Item :=
  { role := some { resId := some "http://rest_client/generated/1" } }

/-- One offending contributor. -/
def listC8 : List Item := [contribClient]

/-- A record whose contributors carry no client-generated role resId. -/
def recC8 : Record := { contributors := some [contribR1, contribR2] }

/-- A diff whose `Modified` lacks the key `"modified"` but has `"categories"`
everywhere. -/
def diffC10a : Diff :=
  { Added := [("categories", .list [some { title := some "t" }]), ("x", .prim (.i 1))]
    Removed := [("categories", .prim (.s "v")), ("y", .prim (.i 2))]
    Modified := [("categories", .list [some { title := some "t" }])] }

/-- A diff whose `Modified` contains the key `"modified"` but no
`"categories"`. -/
def diffC10b : Diff := { Modified := [("modified", .prim (.i 1))] }

end MdbDiff

namespace MdbDiff

/-! Dictionary lemmas. -/

theorem dget_append {β : Type} (m m' : List (String × β)) (k : String) :
    dget (m ++ m') k = if (dget m k).isSome then dget m k else dget m' k := by
  induction m with
  | nil => simp [dget]
  | cons kv rest ih =>
    by_cases h : kv.1 = k
    · simp [dget, h]
    · simpa [dget, h] using ih

theorem dget_isSome_of_mem {β : Type} {m : List (String × β)} {kv : String × β}
    (h : kv ∈ m) : (dget m kv.1).isSome = true := by
  induction m with
  | nil => cases h
  | cons kv' rest ih =>
    by_cases hk : kv'.1 = kv.1
    · simp [dget, hk]
    · rcases List.mem_cons.mp h with h1 | h1
      · exact absurd (h1 ▸ rfl) hk
      · simpa [dget, hk] using ih h1

theorem nodupKeys_tail {β : Type} {kv : String × β} {rest : List (String × β)}
    (hnd : nodupKeys (kv :: rest)) : nodupKeys rest := by
  unfold nodupKeys at hnd ⊢
  simp only [List.map_cons, List.nodup_cons] at hnd
  exact hnd.2

theorem dget_of_mem_nodupKeys {β : Type} {m : List (String × β)} {kv : String × β}
    (hnd : nodupKeys m) (h : kv ∈ m) : dget m kv.1 = some kv.2 := by
  induction m with
  | nil => cases h
  | cons kv' rest ih =>
    rcases List.mem_cons.mp h with h1 | h1
    · simp [dget, h1]
    · have hne : kv'.1 ≠ kv.1 := by
        intro he
        have hmem : kv.1 ∈ rest.map Prod.fst := List.mem_map_of_mem Prod.fst h1
        unfold nodupKeys at hnd
        simp only [List.map_cons, List.nodup_cons] at hnd
        exact hnd.1 (he ▸ hmem)
      simpa [dget, hne] using ih (nodupKeys_tail hnd) h1

theorem dget_dictSet (m : List (String × DVal)) (k k' : String) (v : DVal) :
    dget (dictSet m k v) k' = if k' = k then some v else dget m k' := by
  induction m with
  | nil =>
    by_cases h : k' = k
    · simp [dictSet, dget, h]
    · have hk : ¬ k = k' := fun hc => h hc.symm
      simp [dictSet, dget, h, hk]
  | cons kv rest ih =>
    by_cases h1 : kv.1 = k
    · by_cases h2 : k' = k
      · simp [dictSet, dget, h1, h2]
      · have hkk : ¬ k = k' := fun hc => h2 hc.symm
        have hkv : ¬ kv.1 = k' := fun hc => hkk (h1.symm.trans hc)
        simp [dictSet, dget, h1, h2, hkk, hkv]
    · by_cases h2 : kv.1 = k'
      · have hk : ¬ k' = k := fun hc => h1 (h2.trans hc)
        simp [dictSet, dget, h1, h2, hk]
      · simpa [dictSet, dget, h1, h2] using ih

theorem dget_setAll_of_notin (ps : List (String × Prim)) (m : List (String × DVal))
    (k : String) (h : ∀ p ∈ ps, p.1 ≠ k) : dget (setAll m ps) k = dget m k := by
  induction ps generalizing m with
  | nil => rfl
  | cons p ps ih =>
    have hp : p.1 ≠ k := h p (by simp)
    have hrest : ∀ q ∈ ps, q.1 ≠ k := fun q hq => h q (by simp [hq])
    unfold setAll
    simp only [List.foldl_cons]
    have := ih (dictSet m p.1 (.prim p.2)) hrest
    unfold setAll at this
    rw [this, dget_dictSet]
    simp [Ne.symm hp]

theorem dget_appendElem_ne (m : List (String × DVal)) (name k : String)
    (e : Option Item) (h : k ≠ name) : dget (appendElem m name e) k = dget m k := by
  induction m with
  | nil => rfl
  | cons kv rest ih =>
    by_cases h1 : kv.1 = name
    · have hk : ¬ kv.1 = k := fun hc => h (by rw [← hc, h1])
      have hnk : ¬ name = k := fun hc => h hc.symm
      cases hv : kv.2 <;> simp [appendElem, dget, h1, hk, hv, hnk]
    · by_cases h2 : kv.1 = k
      · simp [appendElem, dget, h1, h2, h]
      · simpa [appendElem, dget, h1, h2] using ih

theorem appendElem_keyfree (m : List (String × DVal)) (name : String)
    (l : List (Option Item)) (e : Option Item) (h : dget m name = none) :
    appendElem (m ++ [(name, .list l)]) name e = m ++ [(name, .list (l ++ [e]))] := by
  induction m with
  | nil => simp [appendElem]
  | cons kv rest ih =>
    have h1 : kv.1 ≠ name := by
      intro hc
      simp [dget, hc] at h
    have hrest : dget rest name = none := by
      simpa [dget, h1] using h
    simp [appendElem, h1, ih hrest]

theorem add_elements_acc (m : List (String × DVal)) (name : String)
    (h : dget m name = none) (es acc : List (Option Item)) :
    add_elements (m ++ [(name, .list acc)]) name es = m ++ [(name, .list (acc ++ es))] := by
  induction es generalizing acc with
  | nil => simp [add_elements]
  | cons e es ih =>
    unfold add_elements
    have hsome : (dget (m ++ [(name, .list acc)]) name).isSome = true := by
      rw [dget_append]
      simp [h, dget]
    simp only [hsome, if_pos]
    rw [appendElem_keyfree m name acc e h, ih (acc ++ [e])]
    simp

theorem add_elements_of_none (m : List (String × DVal)) (name : String)
    (es : List (Option Item)) (h : dget m name = none) (hne : es ≠ []) :
    add_elements m name es = m ++ [(name, .list es)] := by
  cases es with
  | nil => cases hne rfl
  | cons e es =>
    unfold add_elements
    simp only [h, Option.isSome_none, Bool.false_eq_true, if_false]
    rw [appendElem_keyfree m name [] e h]
    simp only [List.nil_append]
    rw [add_elements_acc m name h es [e]]
    simp

theorem dget_add_elements_ne (m : List (String × DVal)) (name k : String)
    (es : List (Option Item)) (h : k ≠ name) :
    dget (add_elements m name es) k = dget m k := by
  induction es generalizing m with
  | nil => rfl
  | cons e es ih =>
    unfold add_elements
    by_cases hs : (dget m name).isSome
    · simp only [hs, if_pos]
      rw [ih, dget_appendElem_ne _ _ _ _ h]
    · simp only [hs, Bool.false_eq_true, if_false]
      rw [ih, dget_appendElem_ne _ _ _ _ h, dget_append]
      have hnk : ¬ name = k := fun hc => h hc.symm
      by_cases hmk : (dget m k).isSome
      · simp [hmk]
      · have hmn := Option.not_isSome_iff_eq_none.mp hmk
        simp [hmn, dget, hnk]

theorem dget_add_elements_self (m : List (String × DVal)) (name : String)
    (es : List (Option Item)) (h : dget m name = none) (hne : es ≠ []) :
    dget (add_elements m name es) name = some (.list es) := by
  rw [add_elements_of_none m name es h hne, dget_append]
  simp [h, dget]

/-! Lemmas about the attribute differ and the collection reconciler. -/

theorem modPairs_key_mem {e m : Record} {p : String × Prim} (h : p ∈ modPairs e m) :
    p.1 ∈ e.attrs.map Prod.fst := by
  unfold modPairs at h
  rcases List.mem_map.mp h with ⟨kv, hkv, hp⟩
  have := List.mem_filter.mp hkv
  rw [← hp]
  show kv.1 ∈ e.attrs.map Prod.fst
  exact List.mem_map_of_mem Prod.fst this.1

theorem addPairs_key_mem {e m : Record} {p : String × Prim} (h : p ∈ addPairs e m) :
    p.1 ∈ m.attrs.map Prod.fst := by
  unfold addPairs at h
  exact List.mem_map_of_mem Prod.fst (List.mem_filter.mp h).1

theorem remPairs_key_mem {e m : Record} {p : String × Prim} (h : p ∈ remPairs e m) :
    p.1 ∈ e.attrs.map Prod.fst := by
  unfold remPairs at h
  exact List.mem_map_of_mem Prod.fst (List.mem_filter.mp h).1

theorem dget_attribute_changes (e m : Record) (d : Diff) (k : String)
    (he : ¬ k ∈ e.attrs.map Prod.fst) (hm : ¬ k ∈ m.attrs.map Prod.fst) :
    dget (attribute_changes e m d).Added k = dget d.Added k ∧
    dget (attribute_changes e m d).Modified k = dget d.Modified k ∧
    dget (attribute_changes e m d).Removed k = dget d.Removed k := by
  refine ⟨?_, ?_, ?_⟩
  · exact dget_setAll_of_notin _ _ _ (fun p hp hc => hm (hc ▸ addPairs_key_mem hp))
  · exact dget_setAll_of_notin _ _ _ (fun p hp hc => he (hc ▸ modPairs_key_mem hp))
  · exact dget_setAll_of_notin _ _ _ (fun p hp hc => he (hc ▸ remPairs_key_mem hp))

theorem hasValued_ne_nil {l : List (Option Item)} (h : hasValued l = true) : l ≠ [] := by
  intro hc
  subst hc
  simp [hasValued] at h

theorem hasValuedI_ne_nil {l : List Item} (h : hasValuedI l = true) : l ≠ [] := by
  intro hc
  subst hc
  simp [hasValuedI] at h

theorem merge_added_Modified (e m : Record) (d : Diff) (field : String)
    (r : Item → Item → Bool) : (merge_added e m d field r).Modified = d.Modified := by
  unfold merge_added
  split <;> rfl

theorem merge_added_Removed (e m : Record) (d : Diff) (field : String)
    (r : Item → Item → Bool) : (merge_added e m d field r).Removed = d.Removed := by
  unfold merge_added
  split <;> rfl

theorem merge_modified_Added (e m : Record) (d : Diff) (field : String)
    (r v : Item → Item → Bool) : (merge_modified e m d field r v).Added = d.Added := by
  unfold merge_modified
  split <;> rfl

theorem merge_modified_Removed (e m : Record) (d : Diff) (field : String)
    (r v : Item → Item → Bool) : (merge_modified e m d field r v).Removed = d.Removed := by
  unfold merge_modified
  split <;> rfl

theorem merge_removed_Added (e m : Record) (d : Diff) (field : String)
    (r : Item → Item → Bool) : (merge_removed e m d field r).Added = d.Added := by
  unfold merge_removed
  split <;> rfl

theorem merge_removed_Modified (e m : Record) (d : Diff) (field : String)
    (r : Item → Item → Bool) : (merge_removed e m d field r).Modified = d.Modified := by
  unfold merge_removed
  split <;> rfl

theorem dget_merge_added_ne (e m : Record) (d : Diff) (field k : String)
    (r : Item → Item → Bool) (h : k ≠ field) :
    dget (merge_added e m d field r).Added k = dget d.Added k := by
  unfold merge_added
  split
  · exact dget_add_elements_ne _ _ _ _ h
  · rfl

theorem dget_merge_modified_ne (e m : Record) (d : Diff) (field k : String)
    (r v : Item → Item → Bool) (h : k ≠ field) :
    dget (merge_modified e m d field r v).Modified k = dget d.Modified k := by
  unfold merge_modified
  split
  · exact dget_add_elements_ne _ _ _ _ h
  · rfl

theorem dget_merge_removed_ne (e m : Record) (d : Diff) (field k : String)
    (r : Item → Item → Bool) (h : k ≠ field) :
    dget (merge_removed e m d field r).Removed k = dget d.Removed k := by
  unfold merge_removed
  split
  · exact dget_add_elements_ne _ _ _ _ h
  · rfl

theorem dget_merge_added_self (e m : Record) (d : Diff) (field : String)
    (r : Item → Item → Bool) (h : dget d.Added field = none) :
    dget (merge_added e m d field r).Added field =
      if hasValuedI (added_items e m field r) then
        some (.list ((added_items e m field r).map some))
      else none := by
  unfold merge_added
  by_cases hv : hasValuedI (added_items e m field r)
  · have hne : (added_items e m field r).map some ≠ [] := by
      simpa using hasValuedI_ne_nil hv
    simp only [hv, if_pos]
    exact dget_add_elements_self _ _ _ h hne
  · simp only [hv, Bool.false_eq_true, if_false]
    exact h

theorem dget_merge_modified_self (e m : Record) (d : Diff) (field : String)
    (r v : Item → Item → Bool) (h : dget d.Modified field = none) :
    dget (merge_modified e m d field r v).Modified field =
      if hasValued (modified_items e m field r v) then
        some (.list (modified_items e m field r v))
      else none := by
  unfold merge_modified
  by_cases hv : hasValued (modified_items e m field r v)
  · simp only [hv, if_pos]
    exact dget_add_elements_self _ _ _ h (hasValued_ne_nil hv)
  · simp only [hv, Bool.false_eq_true, if_false]
    exact h

theorem dget_merge_removed_self (e m : Record) (d : Diff) (field : String)
    (r : Item → Item → Bool) (h : dget d.Removed field = none) :
    dget (merge_removed e m d field r).Removed field =
      if hasValued (removed_items e m field r) then
        some (.list (removed_items e m field r))
      else none := by
  unfold merge_removed
  by_cases hv : hasValued (removed_items e m field r)
  · simp only [hv, if_pos]
    exact dget_add_elements_self _ _ _ h (hasValued_ne_nil hv)
  · simp only [hv, Bool.false_eq_true, if_false]
    exact h

theorem dget_handle_collections_ne (e m : Record) (d : Diff) (field k : String)
    (r v : Item → Item → Bool) (h : k ≠ field) :
    dget (handle_collections e m d field r v).Added k = dget d.Added k ∧
    dget (handle_collections e m d field r v).Modified k = dget d.Modified k ∧
    dget (handle_collections e m d field r v).Removed k = dget d.Removed k := by
  unfold handle_collections
  refine ⟨?_, ?_, ?_⟩
  · rw [merge_removed_Added, merge_modified_Added, dget_merge_added_ne _ _ _ _ _ _ h]
  · rw [merge_removed_Modified, dget_merge_modified_ne _ _ _ _ _ _ _ h, merge_added_Modified]
  · rw [dget_merge_removed_ne _ _ _ _ _ _ h, merge_modified_Removed, merge_added_Removed]

theorem dget_handle_collections_self (e m : Record) (d : Diff) (field : String)
    (r v : Item → Item → Bool) (hA : dget d.Added field = none)
    (hM : dget d.Modified field = none) (hR : dget d.Removed field = none) :
    dget (handle_collections e m d field r v).Added field =
      (if hasValuedI (added_items e m field r) then
        some (.list ((added_items e m field r).map some))
      else none) ∧
    dget (handle_collections e m d field r v).Modified field =
      (if hasValued (modified_items e m field r v) then
        some (.list (modified_items e m field r v))
      else none) ∧
    dget (handle_collections e m d field r v).Removed field =
      (if hasValued (removed_items e m field r) then
        some (.list (removed_items e m field r))
      else none) := by
  unfold handle_collections
  refine ⟨?_, ?_, ?_⟩
  · rw [merge_removed_Added, merge_modified_Added]
    exact dget_merge_added_self _ _ _ _ _ hA
  · rw [merge_removed_Modified]
    exact dget_merge_modified_self _ _ _ _ _ _ (by rw [merge_added_Modified]; exact hM)
  · exact dget_merge_removed_self _ _ _ _ _
      (by rw [merge_modified_Removed, merge_added_Removed]; exact hR)

theorem noCollAttrs_not_mem {r : Record} (h : noCollAttrs r) {field : String}
    (hf : field ∈ tracked_fields) : ¬ field ∈ r.attrs.map Prod.fst := by
  intro hmem
  rcases List.mem_map.mp hmem with ⟨kv, hkv, hke⟩
  exact h kv hkv (hke ▸ hf)

/-- What `Differ.calculate` leaves under a tracked field in each of the three
mappings, for well-formed records: exactly the outcome list of that field's
`handle_collections` call, when it has a truthy element, and nothing
otherwise. -/
theorem dget_calculate (e m : Record) (field : String) (hf : field ∈ tracked_fields)
    (he : noCollAttrs e) (hm : noCollAttrs m) :
    dget (calculate e m).Added field =
      (if hasValuedI (added_items e m field (field_identity_comparator field)) then
        some (.list ((added_items e m field (field_identity_comparator field)).map some))
      else none) ∧
    dget (calculate e m).Modified field =
      (if hasValued (modified_items e m field (field_identity_comparator field)
          (field_value_comparator field)) then
        some (.list (modified_items e m field (field_identity_comparator field)
          (field_value_comparator field)))
      else none) ∧
    dget (calculate e m).Removed field =
      (if hasValued (removed_items e m field (field_identity_comparator field)) then
        some (.list (removed_items e m field (field_identity_comparator field)))
      else none) := by
  obtain ⟨hA0, hM0, hR0⟩ :=
    dget_attribute_changes e m {} field (noCollAttrs_not_mem he hf) (noCollAttrs_not_mem hm hf)
  rw [show dget (Diff.Added {}) field = none from rfl] at hA0
  rw [show dget (Diff.Modified {}) field = none from rfl] at hM0
  rw [show dget (Diff.Removed {}) field = none from rfl] at hR0
  have hfields : field = "contributors" ∨ field = "categories" ∨ field = "subjects" ∨
      field = "spatials" := by
    simpa [tracked_fields] using hf
  unfold calculate apply_changes_collections
  rcases hfields with rfl | rfl | rfl | rfl
  · simp only [show field_identity_comparator "contributors" =
        contributor_value_based_identity from rfl,
      show field_value_comparator "contributors" = contributor_value_equals from rfl]
    obtain ⟨hA1, hM1, hR1⟩ :=
      dget_handle_collections_self e m (attribute_changes e m {}) "contributors"
        contributor_value_based_identity contributor_value_equals hA0 hM0 hR0
    obtain ⟨hA2, hM2, hR2⟩ :=
      dget_handle_collections_ne e m
        (handle_collections e m (attribute_changes e m {}) "contributors"
          contributor_value_based_identity contributor_value_equals)
        "categories" "contributors" category_reference_equals category_value_equals (by decide)
    obtain ⟨hA3, hM3, hR3⟩ :=
      dget_handle_collections_ne e m
        (handle_collections e m
          (handle_collections e m (attribute_changes e m {}) "contributors"
            contributor_value_based_identity contributor_value_equals)
          "categories" category_reference_equals category_value_equals)
        "subjects" "contributors" subject_value_equals subject_value_equals (by decide)
    obtain ⟨hA4, hM4, hR4⟩ :=
      dget_handle_collections_ne e m
        (handle_collections e m
          (handle_collections e m
            (handle_collections e m (attribute_changes e m {}) "contributors"
              contributor_value_based_identity contributor_value_equals)
            "categories" category_reference_equals category_value_equals)
          "subjects" subject_value_equals subject_value_equals)
        "spatials" "contributors" spatial_value_identity_comparator spatial_value_equals
        (by decide)
    exact ⟨hA4.trans (hA3.trans (hA2.trans hA1)),
      hM4.trans (hM3.trans (hM2.trans hM1)), hR4.trans (hR3.trans (hR2.trans hR1))⟩
  · simp only [show field_identity_comparator "categories" = category_reference_equals from rfl,
      show field_value_comparator "categories" = category_value_equals from rfl]
    obtain ⟨hA1, hM1, hR1⟩ :=
      dget_handle_collections_ne e m (attribute_changes e m {}) "contributors" "categories"
        contributor_value_based_identity contributor_value_equals (by decide)
    obtain ⟨hA2, hM2, hR2⟩ :=
      dget_handle_collections_self e m
        (handle_collections e m (attribute_changes e m {}) "contributors"
          contributor_value_based_identity contributor_value_equals)
        "categories" category_reference_equals category_value_equals
        (hA1.trans hA0) (hM1.trans hM0) (hR1.trans hR0)
    obtain ⟨hA3, hM3, hR3⟩ :=
      dget_handle_collections_ne e m
        (handle_collections e m
          (handle_collections e m (attribute_changes e m {}) "contributors"
            contributor_value_based_identity contributor_value_equals)
          "categories" category_reference_equals category_value_equals)
        "subjects" "categories" subject_value_equals subject_value_equals (by decide)
    obtain ⟨hA4, hM4, hR4⟩ :=
      dget_handle_collections_ne e m
        (handle_collections e m
          (handle_collections e m
            (handle_collections e m (attribute_changes e m {}) "contributors"
              contributor_value_based_identity contributor_value_equals)
            "categories" category_reference_equals category_value_equals)
          "subjects" subject_value_equals subject_value_equals)
        "spatials" "categories" spatial_value_identity_comparator spatial_value_equals
        (by decide)
    exact ⟨hA4.trans (hA3.trans hA2), hM4.trans (hM3.trans hM2), hR4.trans (hR3.trans hR2)⟩
  · simp only [show field_identity_comparator "subjects" = subject_value_equals from rfl,
      show field_value_comparator "subjects" = subject_value_equals from rfl]
    obtain ⟨hA1, hM1, hR1⟩ :=
      dget_handle_collections_ne e m (attribute_changes e m {}) "contributors" "subjects"
        contributor_value_based_identity contributor_value_equals (by decide)
    obtain ⟨hA2, hM2, hR2⟩ :=
      dget_handle_collections_ne e m
        (handle_collections e m (attribute_changes e m {}) "contributors"
          contributor_value_based_identity contributor_value_equals)
        "categories" "subjects" category_reference_equals category_value_equals (by decide)
    obtain ⟨hA3, hM3, hR3⟩ :=
      dget_handle_collections_self e m
        (handle_collections e m
          (handle_collections e m (attribute_changes e m {}) "contributors"
            contributor_value_based_identity contributor_value_equals)
          "categories" category_reference_equals category_value_equals)
        "subjects" subject_value_equals subject_value_equals
        (hA2.trans (hA1.trans hA0)) (hM2.trans (hM1.trans hM0)) (hR2.trans (hR1.trans hR0))
    obtain ⟨hA4, hM4, hR4⟩ :=
      dget_handle_collections_ne e m
        (handle_collections e m
          (handle_collections e m
            (handle_collections e m (attribute_changes e m {}) "contributors"
              contributor_value_based_identity contributor_value_equals)
            "categories" category_reference_equals category_value_equals)
          "subjects" subject_value_equals subject_value_equals)
        "spatials" "subjects" spatial_value_identity_comparator spatial_value_equals (by decide)
    exact ⟨hA4.trans hA3, hM4.trans hM3, hR4.trans hR3⟩
  · simp only [show field_identity_comparator "spatials" =
        spatial_value_identity_comparator from rfl,
      show field_value_comparator "spatials" = spatial_value_equals from rfl]
    obtain ⟨hA1, hM1, hR1⟩ :=
      dget_handle_collections_ne e m (attribute_changes e m {}) "contributors" "spatials"
        contributor_value_based_identity contributor_value_equals (by decide)
    obtain ⟨hA2, hM2, hR2⟩ :=
      dget_handle_collections_ne e m
        (handle_collections e m (attribute_changes e m {}) "contributors"
          contributor_value_based_identity contributor_value_equals)
        "categories" "spatials" category_reference_equals category_value_equals (by decide)
    obtain ⟨hA3, hM3, hR3⟩ :=
      dget_handle_collections_ne e m
        (handle_collections e m
          (handle_collections e m (attribute_changes e m {}) "contributors"
            contributor_value_based_identity contributor_value_equals)
          "categories" category_reference_equals category_value_equals)
        "subjects" "spatials" subject_value_equals subject_value_equals (by decide)
    exact dget_handle_collections_self e m
      (handle_collections e m
        (handle_collections e m
          (handle_collections e m (attribute_changes e m {}) "contributors"
            contributor_value_based_identity contributor_value_equals)
          "categories" category_reference_equals category_value_equals)
        "subjects" subject_value_equals subject_value_equals)
      "spatials" spatial_value_identity_comparator spatial_value_equals
      (hA3.trans (hA2.trans (hA1.trans hA0))) (hM3.trans (hM2.trans (hM1.trans hM0)))
      (hR3.trans (hR2.trans (hR1.trans hR0)))

/-- C1: for every pair of well-formed records and every tracked collection
field, a Modified or Removed list that `Differ.calculate` stores for that
field (pre-pack) has exactly as many entries as the original record's
collection for the field, and every non-null Removed entry at index `i` is the
original collection's element at index `i`. -/
theorem collection_lists_positionally_aligned (e m : Record) (field : String)
    (hf : field ∈ tracked_fields) (he : noCollAttrs e) (hm : noCollAttrs m) :
    (∀ l, dget (calculate e m).Modified field = some (.list l) →
      l.length = (getColl e field).length) ∧
    (∀ l, dget (calculate e m).Removed field = some (.list l) →
      l.length = (getColl e field).length ∧
        ∀ i x, l.get? i = some (some x) → (getColl e field).get? i = some x) := by
  obtain ⟨_, hM, hR⟩ := dget_calculate e m field hf he hm
  constructor
  · intro l hl
    rw [hM] at hl
    by_cases hv : hasValued (modified_items e m field (field_identity_comparator field)
        (field_value_comparator field))
    · rw [if_pos hv] at hl
      have hle : modified_items e m field (field_identity_comparator field)
          (field_value_comparator field) = l := by
        have := Option.some.inj hl
        cases this
        rfl
      rw [← hle]
      unfold modified_items
      exact List.length_map _ _
    · rw [if_neg hv] at hl
      cases hl
  · intro l hl
    rw [hR] at hl
    by_cases hv : hasValued (removed_items e m field (field_identity_comparator field))
    · rw [if_pos hv] at hl
      have hle : removed_items e m field (field_identity_comparator field) = l := by
        have := Option.some.inj hl
        cases this
        rfl
      constructor
      · rw [← hle]
        unfold removed_items
        exact List.length_map _ _
      · intro i x hix
        rw [← hle] at hix
        unfold removed_items at hix
        rw [List.get?_map] at hix
        cases hgc : (getColl e field).get? i with
        | none => rw [hgc] at hix; cases hix
        | some ex =>
          rw [hgc] at hix
          rw [Option.map_some'] at hix
          have hfx := Option.some.inj hix
          by_cases hemp : (find (getColl m field) (field_identity_comparator field) ex).isEmpty
          · rw [if_pos hemp] at hfx
            exact hfx
          · rw [if_neg hemp] at hfx
            cases hfx
    · rw [if_neg hv] at hl
      cases hl

/-- Witness for C1 at a concrete record pair with one retitled subject. -/
theorem collection_lists_positionally_aligned_witness :
    ("subjects" ∈ tracked_fields ∧ noCollAttrs recC1e ∧ noCollAttrs recC1m) ∧
    ((∀ l, dget (calculate recC1e recC1m).Modified "subjects" = some (.list l) →
      l.length = (getColl recC1e "subjects").length) ∧
    (∀ l, dget (calculate recC1e recC1m).Removed "subjects" = some (.list l) →
      l.length = (getColl recC1e "subjects").length ∧
        ∀ i x, l.get? i = some (some x) → (getColl recC1e "subjects").get? i = some x)) :=
  ⟨⟨by decide, by decide, by decide⟩,
    collection_lists_positionally_aligned recC1e recC1m "subjects"
      (by decide) (by decide) (by decide)⟩

/-- With one comparator used for both identity and value, `is_updated_x` is
constantly false, so the modified list is all `None`. -/
theorem modified_items_same_comparator (e m : Record) (field : String)
    (v : Item → Item → Bool) :
    hasValued (modified_items e m field v v) = false := by
  unfold hasValued
  have hnil : (modified_items e m field v v).filter entryTruthy = [] := by
    rw [List.filter_eq_nil_iff]
    intro o ho
    unfold modified_items at ho
    rcases List.mem_map.mp ho with ⟨me, _, hme⟩
    have hfind : find (getColl m field) (fun ex modified_ => v ex modified_ && !v ex modified_)
        me = [] := by
      unfold find
      rw [List.filter_eq_nil_iff]
      intro cat _
      simp [Bool.and_not_self]
    rw [hfind] at hme
    rw [← hme]
    simp [entryTruthy]
  rw [hnil]
  rfl

/-- C7: with the default subjects comparators (identity = value =
`__subject_value_equals`), `calculate` never reports subjects as Modified; an
original subject whose title vanished from `modified` shows up as a Removed
entry at its original index, and a new title shows up as an Added entry. -/
theorem subjects_value_identity_remove_add (e m : Record)
    (he : noCollAttrs e) (hm : noCollAttrs m) (i : ℕ) (x x' : Item)
    (hx : (getColl e "subjects").get? i = some x)
    (hxt : x.isTruthy = true)
    (hgone : ∀ y ∈ getColl m "subjects", subject_value_equals y x = false)
    (hx' : x' ∈ getColl m "subjects")
    (hx't : x'.isTruthy = true)
    (hnew : ∀ y ∈ getColl e "subjects", subject_value_equals y x' = false) :
    dget (calculate e m).Modified "subjects" = none ∧
    (∃ l, dget (calculate e m).Removed "subjects" = some (.list l) ∧
      l.get? i = some (some x) ∧ l.length = (getColl e "subjects").length) ∧
    (∃ la, dget (calculate e m).Added "subjects" = some (.list la) ∧ some x' ∈ la) := by
  obtain ⟨hA, hM, hR⟩ := dget_calculate e m "subjects" (by decide) he hm
  have hsic : field_identity_comparator "subjects" = subject_value_equals := rfl
  have hsvc : field_value_comparator "subjects" = subject_value_equals := rfl
  rw [hsic] at hA hM hR
  rw [hsvc] at hM
  refine ⟨?_, ?_, ?_⟩
  · rw [hM, modified_items_same_comparator]
    rfl
  · have hrem : (removed_items e m "subjects" subject_value_equals).get? i = some (some x) := by
      unfold removed_items
      rw [List.get?_map, hx, Option.map_some']
      have hfind : find (getColl m "subjects") subject_value_equals x = [] := by
        unfold find
        rw [List.filter_eq_nil_iff]
        intro y hy
        simp [hgone y hy]
      rw [hfind]
      rfl
    have hvr : hasValued (removed_items e m "subjects" subject_value_equals) = true := by
      unfold hasValued
      have hmem : (some x) ∈ removed_items e m "subjects" subject_value_equals :=
        List.get?_mem hrem
      have : (some x) ∈ (removed_items e m "subjects" subject_value_equals).filter
          entryTruthy :=
        List.mem_filter.mpr ⟨hmem, by simp [entryTruthy, hxt]⟩
      cases hfl : (removed_items e m "subjects" subject_value_equals).filter entryTruthy with
      | nil => rw [hfl] at this; cases this
      | cons a l => rfl
    refine ⟨removed_items e m "subjects" subject_value_equals, ?_, hrem, ?_⟩
    · rw [hR, if_pos hvr]
    · unfold removed_items
      exact List.length_map _ _
  · have hmemadd : x' ∈ added_items e m "subjects" subject_value_equals := by
      unfold added_items
      refine List.mem_filter.mpr ⟨hx', ?_⟩
      have hfind : find (getColl e "subjects") subject_value_equals x' = [] := by
        unfold find
        rw [List.filter_eq_nil_iff]
        intro y hy
        simp [hnew y hy]
      rw [hfind]
      rfl
    have hva : hasValuedI (added_items e m "subjects" subject_value_equals) = true := by
      unfold hasValuedI
      have : x' ∈ (added_items e m "subjects" subject_value_equals).filter Item.isTruthy :=
        List.mem_filter.mpr ⟨hmemadd, hx't⟩
      cases hfl : (added_items e m "subjects" subject_value_equals).filter Item.isTruthy with
      | nil => rw [hfl] at this; cases this
      | cons a l => rfl
    refine ⟨(added_items e m "subjects" subject_value_equals).map some, ?_, ?_⟩
    · rw [hA, if_pos hva]
    · exact List.mem_map_of_mem some hmemadd

/-- Witness for C7 at a concrete pair: subject `a` retitled to `b`. -/
theorem subjects_value_identity_remove_add_witness :
    (noCollAttrs recC7e ∧ noCollAttrs recC7m ∧
      (getColl recC7e "subjects").get? 0 = some { title := some "a" } ∧
      Item.isTruthy { title := some "a" } = true ∧
      (∀ y ∈ getColl recC7m "subjects",
        subject_value_equals y { title := some "a" } = false) ∧
      ({ title := some "b" } : Item) ∈ getColl recC7m "subjects" ∧
      Item.isTruthy { title := some "b" } = true ∧
      (∀ y ∈ getColl recC7e "subjects",
        subject_value_equals y { title := some "b" } = false)) ∧
    (dget (calculate recC7e recC7m).Modified "subjects" = none ∧
      (∃ l, dget (calculate recC7e recC7m).Removed "subjects" = some (.list l) ∧
        l.get? 0 = some (some { title := some "a" }) ∧
        l.length = (getColl recC7e "subjects").length) ∧
      (∃ la, dget (calculate recC7e recC7m).Added "subjects" = some (.list la) ∧
        some ({ title := some "b" } : Item) ∈ la)) :=
  ⟨⟨by decide, by decide, by decide, by decide, by decide, by decide, by decide, by decide⟩,
    subjects_value_identity_remove_add recC7e recC7m (by decide) (by decide) 0 _ _
      (by decide) (by decide) (by decide) (by decide) (by decide) (by decide)⟩

/-- Diffing a record against itself leaves the attribute differ inert when
the dict has unique keys and every value equals itself (which rules out NaN
floats). -/
theorem attribute_changes_self (e : Record) (d : Diff) (hnd : nodupKeys e.attrs)
    (hself : ∀ kv ∈ e.attrs, primEq kv.2 kv.2 = true) :
    attribute_changes e e d = d := by
  unfold attribute_changes
  have hmp : modPairs e e = [] := by
    unfold modPairs
    have : e.attrs.filter (fun kv =>
        should_process kv.1 && is_accepted_type kv.2 &&
          (match dget e.attrs kv.1 with
           | some mv => !primEq mv kv.2
           | none => false)) = [] := by
      rw [List.filter_eq_nil_iff]
      intro kv hkv
      rw [dget_of_mem_nodupKeys hnd hkv]
      simp [hself kv hkv]
    rw [this]
    rfl
  have hnone : ∀ kv ∈ e.attrs, (dget e.attrs kv.1).isNone = false := by
    intro kv hkv
    have hs := dget_isSome_of_mem hkv
    cases h : dget e.attrs kv.1
    · rw [h] at hs
      cases hs
    · rfl
  have hap : addPairs e e = [] := by
    unfold addPairs
    rw [List.filter_eq_nil_iff]
    intro kv hkv
    simp [hnone kv hkv]
  have hrp : remPairs e e = [] := by
    unfold remPairs
    rw [List.filter_eq_nil_iff]
    intro kv hkv
    simp [hnone kv hkv]
  rw [hmp, hap, hrp]
  rfl

/-- Diffing a record against itself leaves one collection handler inert when
identity is reflexive on the collection and identity-equal items are also
value-equal. -/
theorem handle_collections_self (e : Record) (d : Diff) (field : String)
    (r v : Item → Item → Bool)
    (hrefl : ∀ c ∈ getColl e field, r c c = true)
    (himp : ∀ x ∈ getColl e field, ∀ y ∈ getColl e field, r x y = true → v x y = true) :
    handle_collections e e d field r v = d := by
  have hfind_refl : ∀ c ∈ getColl e field, ¬ (find (getColl e field) r c).isEmpty = true := by
    intro c hc hemp
    have : c ∈ find (getColl e field) r c := List.mem_filter.mpr ⟨hc, hrefl c hc⟩
    rw [List.isEmpty_iff.mp hemp] at this
    cases this
  have hadds : added_items e e field r = [] := by
    unfold added_items
    rw [List.filter_eq_nil_iff]
    intro c hc
    simpa using hfind_refl c hc
  have hmods : hasValued (modified_items e e field r v) = false := by
    unfold hasValued
    have hnil : (modified_items e e field r v).filter entryTruthy = [] := by
      rw [List.filter_eq_nil_iff]
      intro o ho
      unfold modified_items at ho
      rcases List.mem_map.mp ho with ⟨me, hme, heq⟩
      have hfind : find (getColl e field) (fun ex modified_ => r ex modified_ && !v ex modified_)
          me = [] := by
        unfold find
        rw [List.filter_eq_nil_iff]
        intro cat hcat
        by_cases hr : r cat me = true
        · simp [hr, himp cat hcat me hme hr]
        · simp [Bool.eq_false_iff.mpr hr]
      rw [hfind] at heq
      rw [← heq]
      simp [entryTruthy]
    rw [hnil]
    rfl
  have hrems : hasValued (removed_items e e field r) = false := by
    unfold hasValued
    have hnil : (removed_items e e field r).filter entryTruthy = [] := by
      rw [List.filter_eq_nil_iff]
      intro o ho
      unfold removed_items at ho
      rcases List.mem_map.mp ho with ⟨ex, hex, heq⟩
      rw [if_neg (hfind_refl ex hex)] at heq
      rw [← heq]
      simp [entryTruthy]
    rw [hnil]
    rfl
  unfold handle_collections merge_removed merge_modified merge_added
  rw [hadds]
  simp only [hasValuedI, List.filter_nil, List.isEmpty_nil, Bool.not_true, Bool.false_eq_true,
    if_false]
  rw [hmods]
  simp only [Bool.false_eq_true, if_false]
  rw [hrems]
  simp only [Bool.false_eq_true, if_false]

/-- C2 counterexample: `recC2` holds two contributors that agree on identity
(contact title and role title) but differ on role resId, so diffing the record
against itself reports a contributors modification and `has_diff()` is
true. -/
theorem selfdiff_not_clean_counterexample : (calculate recC2 recC2).has_diff = true := by
  rfl

/-- C2 (amended): diffing a record against itself yields `has_diff() == false`
provided the record's attribute keys are unique, its attribute values equal
themselves under Python equality (no NaN), identity is reflexive on each
tracked collection (no nameless NaN-coordinate spatials), and no two items of
a tracked collection are identity-equal without being value-equal. -/
theorem selfdiff_clean_of_wf (A : Record) (hnd : nodupKeys A.attrs)
    (hself : ∀ kv ∈ A.attrs, primEq kv.2 kv.2 = true)
    (hrefl : ∀ field ∈ tracked_fields, ∀ c ∈ getColl A field,
      field_identity_comparator field c c = true)
    (himp : ∀ field ∈ tracked_fields, ∀ x ∈ getColl A field, ∀ y ∈ getColl A field,
      field_identity_comparator field x y = true → field_value_comparator field x y = true) :
    (calculate A A).has_diff = false := by
  unfold calculate apply_changes_collections
  show (handle_collections A A
      (handle_collections A A
        (handle_collections A A
          (handle_collections A A (attribute_changes A A {}) "contributors"
            contributor_value_based_identity contributor_value_equals)
          "categories" category_reference_equals category_value_equals)
        "subjects" subject_value_equals subject_value_equals)
      "spatials" spatial_value_identity_comparator spatial_value_equals).has_diff = false
  rw [attribute_changes_self A {} hnd hself]
  rw [handle_collections_self A {} "contributors" contributor_value_based_identity
      contributor_value_equals (hrefl "contributors" (by decide))
      (himp "contributors" (by decide))]
  rw [handle_collections_self A {} "categories" category_reference_equals
      category_value_equals (hrefl "categories" (by decide)) (himp "categories" (by decide))]
  rw [handle_collections_self A {} "subjects" subject_value_equals subject_value_equals
      (hrefl "subjects" (by decide)) (himp "subjects" (by decide))]
  rw [handle_collections_self A {} "spatials" spatial_value_identity_comparator
      spatial_value_equals (hrefl "spatials" (by decide)) (himp "spatials" (by decide))]
  rfl

/-- Witness for the amended C2 on a record with all four collections
populated. -/
theorem selfdiff_clean_of_wf_witness :
    (nodupKeys recC2w.attrs ∧
      (∀ kv ∈ recC2w.attrs, primEq kv.2 kv.2 = true) ∧
      (∀ field ∈ tracked_fields, ∀ c ∈ getColl recC2w field,
        field_identity_comparator field c c = true) ∧
      (∀ field ∈ tracked_fields, ∀ x ∈ getColl recC2w field, ∀ y ∈ getColl recC2w field,
        field_identity_comparator field x y = true →
          field_value_comparator field x y = true)) ∧
    (calculate recC2w recC2w).has_diff = false :=
  ⟨⟨by decide, by decide, by decide, by decide⟩,
    selfdiff_clean_of_wf recC2w (by decide) (by decide) (by decide) (by decide)⟩

/-- C3 counterexample: on the spec's scenario the Removed mapping is not
`{title: "foo"}` — the `title` key is in the differ's default ignorables, so
nothing at all is removed. -/
theorem scalar_scenario_counterexample :
    (calculate recC3o recC3m).Removed ≠ [("title", DVal.prim (.s "foo"))] := by
  decide

/-- C3 (amended): for original `{title:"foo", baz:"bazt"}` and modified
`{baz:"bazz", fizz:"buzz"}`, `calculate` yields Modified = `{baz:"bazz"}`,
Added = `{fizz:"buzz"}` and Removed empty (the `title` removal is suppressed
by the default ignorables). -/
theorem scalar_scenario_amended :
    (calculate recC3o recC3m).Modified = [("baz", DVal.prim (.s "bazz"))] ∧
    (calculate recC3o recC3m).Added = [("fizz", DVal.prim (.s "buzz"))] ∧
    (calculate recC3o recC3m).Removed = [] := by
  refine ⟨rfl, rfl, rfl⟩

/-- C4: `remove_duplicates` does not key spatials by name+latitude+longitude;
it runs the contributor key function over them, so two spatials with distinct
`_spatials_key` values (Oslo and Bergen share no contributor fields, hence
share the contributor key) collapse to the first one. -/
theorem remove_duplicates_spatials_uses_contributor_key :
    remove_duplicates recC4 = .ok { recC4 with spatials := some [spatialOslo] } ∧
    spatials_key spatialOslo ≠ spatials_key spatialBergen ∧
    squash_byvalue_equal_spatials [spatialOslo, spatialBergen] =
      .ok [spatialOslo, spatialBergen] := by
  refine ⟨rfl, by decide, rfl⟩

/-- C5: `categories_changes` stores a modified list with no truthy entry: on
identical one-category records the computed `modified_items` is `[None]`, yet
it is placed in the `FieldDiffResult` (the pruning guard tests the `modified`
record instead of `modified_items`), making `has_diff()` true. -/
theorem categories_changes_keeps_untruthy_modified :
    (categories_changes recC5 recC5).modified = some [none] ∧
    (categories_changes recC5 recC5).has_diff = true := by
  refine ⟨rfl, rfl⟩

/-- C6 counterexample: packing a diff whose `Modified` holds an empty-string
value removes nothing — `__pack_change` only ever deletes list-valued
entries. -/
theorem pack_keeps_empty_nonlist_counterexample :
    (diffC6.pack).Modified = [("a", DVal.prim (.s ""))] := by
  rfl

/-- Source `__pack_change` deletes a batch of keys by folding single-key deletions. -/
theorem foldl_filter_del (ks : List String) (m : List (String × DVal)) :
    ks.foldl (fun acc k => acc.filter (fun kv => kv.1 != k)) m =
      m.filter (fun kv => !ks.contains kv.1) := by
  induction ks generalizing m with
  | nil => simp
  | cons k ks ih =>
    simp only [List.foldl_cons]
    rw [ih, List.filter_filter]
    congr 1
    funext kv
    by_cases h1 : kv.1 = k <;> simp [h1, List.contains_cons]

/-- C6 (amended): `pack()` removes exactly the list-valued entries with no
truthy element from each mapping; all other entries — including empty non-list
values — are kept. -/
theorem pack_removes_exactly_untruthy_lists (d : Diff) (hA : nodupKeys d.Added)
    (hM : nodupKeys d.Modified) (hR : nodupKeys d.Removed) :
    (d.pack).Added = d.Added.filter (fun kv => !untruthyList kv.2) ∧
    (d.pack).Modified = d.Modified.filter (fun kv => !untruthyList kv.2) ∧
    (d.pack).Removed = d.Removed.filter (fun kv => !untruthyList kv.2) := by
  have key : ∀ m : List (String × DVal), nodupKeys m →
      pack_change m = m.filter (fun kv => !untruthyList kv.2) := by
    intro m hnd
    unfold pack_change
    rw [foldl_filter_del]
    apply List.filter_congr
    intro kv hkv
    have hiff : ((m.filter (fun kv => untruthyList kv.2)).map Prod.fst).contains kv.1 =
        untruthyList kv.2 := by
      by_cases hu : untruthyList kv.2 = true
      · rw [hu]
        have hmem : kv.1 ∈ (m.filter (fun kv => untruthyList kv.2)).map Prod.fst :=
          List.mem_map_of_mem Prod.fst (List.mem_filter.mpr ⟨hkv, hu⟩)
        exact List.contains_iff_exists_mem_beq.mpr ⟨kv.1, hmem, by simp⟩
      · have hu' : untruthyList kv.2 = false := Bool.eq_false_iff.mpr hu
        rw [hu']
        cases hcon : ((m.filter (fun kv => untruthyList kv.2)).map Prod.fst).contains kv.1
        · rfl
        · exfalso
          rcases List.contains_iff_exists_mem_beq.mp hcon with ⟨k', hk', hbeq⟩
          rcases List.mem_map.mp hk' with ⟨kv', hkv', hke⟩
          have hkeq : kv.1 = kv'.1 := hke ▸ eq_of_beq hbeq
          have hfil := List.mem_filter.mp hkv'
          have h1 := dget_of_mem_nodupKeys hnd hkv
          have h2 := dget_of_mem_nodupKeys hnd hfil.1
          rw [← hkeq] at h2
          have hv : kv.2 = kv'.2 := Option.some.inj (h1.symm.trans h2)
          rw [← hv] at hfil
          rw [hfil.2] at hu'
          cases hu'
    rw [hiff]
  exact ⟨key d.Added hA, key d.Modified hM, key d.Removed hR⟩

/-- Witness for the amended C6 on a mixed diff. -/
theorem pack_removes_exactly_untruthy_lists_witness :
    (nodupKeys diffC6w.Added ∧ nodupKeys diffC6w.Modified ∧ nodupKeys diffC6w.Removed) ∧
    ((diffC6w.pack).Added = diffC6w.Added.filter (fun kv => !untruthyList kv.2) ∧
    (diffC6w.pack).Modified = diffC6w.Modified.filter (fun kv => !untruthyList kv.2) ∧
    (diffC6w.pack).Removed = diffC6w.Removed.filter (fun kv => !untruthyList kv.2)) :=
  ⟨⟨by decide, by decide, by decide⟩,
    pack_removes_exactly_untruthy_lists diffC6w (by decide) (by decide) (by decide)⟩

/-- The squash loop raises exactly when the key function raises on some item
(the key function runs on every item in order). -/
theorem squash_go_isErr (kf : Item → Except String String) (l : List Item)
    (seen : List String) (revised : List Item) :
    isErr (squash_go kf l seen revised) = l.any (fun it => isErr (kf it)) := by
  induction l generalizing seen revised with
  | nil => rfl
  | cons item rest ih =>
    cases hk : kf item with
    | error e => simp only [squash_go, hk, List.any_cons, isErr, Bool.true_or]
    | ok key =>
      simp only [squash_go, hk]
      by_cases hs : seen.contains key = true
      · rw [if_pos hs, ih]
        simp only [List.any_cons, hk, isErr, Bool.false_or]
      · rw [if_neg hs, ih]
        simp only [List.any_cons, hk, isErr, Bool.false_or]

/-- Source `eo_fixup.__key` raises exactly on a client-generated role resId. -/
theorem contribKey_isErr (it : Item) : isErr (contribKey it) = hasClientRoleId it := by
  unfold contribKey hasClientRoleId
  by_cases h : strContains ((it.role.bind Role.resId).getD "") "rest_client" = true
  · rw [if_pos h, h]
    rfl
  · rw [if_neg h, Bool.eq_false_iff.mpr h]
    rfl

/-- Contributor deduplication raises exactly when some contributor's role
resId contains `rest_client`. -/
theorem squash_contributors_isErr (cs : List Item) :
    isErr (squash_byvalue_equal_contributors cs) = cs.any hasClientRoleId := by
  unfold squash_byvalue_equal_contributors squash_by_key
  rw [squash_go_isErr]
  rw [show (fun it => isErr (contribKey it)) = hasClientRoleId from funext contribKey_isErr]

/-- C8: deduplicating a contributors collection — directly via
`squash_byvalue_equal_contributors`, or via `remove_duplicates` on a record
whose only collection to squash is its contributors — raises exactly when
some contributor has a role resId containing the substring `rest_client`, and
returns normally on every other input. -/
theorem dedup_raises_iff_client_role (l : List Item) (pe : Record)
    (hsp : pe.spatials = none) :
    isErr (squash_byvalue_equal_contributors l) = l.any hasClientRoleId ∧
    isErr (remove_duplicates pe) = (pe.contributors.getD []).any hasClientRoleId := by
  refine ⟨squash_contributors_isErr l, ?_⟩
  unfold remove_duplicates
  split
  · rename_i cs hc
    rw [hc]
    split
    · rename_i e hsq
      rw [show ((some cs).getD [] : List Item) = cs from rfl, ← squash_contributors_isErr, hsq]
      rfl
    · rename_i cs2 hsq
      split
      · rename_i sps hspeq
        exfalso
        rw [hsp] at hspeq
        cases hspeq
      · rw [show ((some cs).getD [] : List Item) = cs from rfl, ← squash_contributors_isErr, hsq]
        rfl
  · rename_i hc
    rw [hc]
    split
    · rename_i sps hspeq
      exfalso
      rw [hsp] at hspeq
      cases hspeq
    · rfl

/-- Witness for C8: the offending single-contributor list raises, the clean
record passes. -/
theorem dedup_raises_iff_client_role_witness :
    (recC8.spatials = none) ∧
    isErr (squash_byvalue_equal_contributors listC8) = listC8.any hasClientRoleId ∧
    isErr (remove_duplicates recC8) = (recC8.contributors.getD []).any hasClientRoleId ∧
    listC8.any hasClientRoleId = true ∧
    (recC8.contributors.getD []).any hasClientRoleId = false :=
  ⟨by decide,
    (dedup_raises_iff_client_role listC8 recC8 (by decide)).1,
    (dedup_raises_iff_client_role listC8 recC8 (by decide)).2,
    by decide, by decide⟩

/-- Deleting an absent key is a no-op. -/
theorem dictDel_of_none {β : Type} (m : List (String × β)) (k : String)
    (h : dget m k = none) : dictDel m k = m := by
  induction m with
  | nil => rfl
  | cons kv rest ih =>
    have h1 : ¬ kv.1 = k := by
      intro hc
      simp [dget, hc] at h
    have hrest : dget rest k = none := by
      simpa [dget, h1] using h
    have hb : (kv.1 != k) = true := by
      simp [bne, h1]
    have hstep : dictDel (kv :: rest) k = kv :: dictDel rest k := by
      unfold dictDel
      rw [List.filter_cons, if_pos hb]
    rw [hstep, ih hrest]

/-- The guarded deletions in `eliminiate_changed_categories` always amount to
`dictDel`. -/
theorem guarded_del_eq (m : List (String × DVal)) (k : String) :
    (if (dget m k).isSome then dictDel m k else m) = dictDel m k := by
  by_cases h : (dget m k).isSome
  · rw [if_pos h]
  · rw [if_neg h]
    cases hn : dget m k with
    | some v => rw [hn] at h; simp at h
    | none => rw [dictDel_of_none m k hn]

/-- C10: `eliminiate_changed_categories` drops `categories` from Added and
Removed, but its middle block tests `Modified` for the literal key
`"modified"`: when that key is absent the Modified mapping is untouched (any
`categories` entry included), and when `"modified"` is present without
`"categories"` the call raises `KeyError`. -/
theorem eliminiate_changed_categories_behavior (d : Diff) :
    (dget d.Modified "modified" = none →
      d.eliminiate_changed_categories = .ok
        { Added := dictDel d.Added "categories"
          Removed := dictDel d.Removed "categories"
          Modified := d.Modified }) ∧
    (dget d.Modified "modified" ≠ none → dget d.Modified "categories" = none →
      isErr d.eliminiate_changed_categories = true) ∧
    (dget d.Modified "modified" ≠ none → dget d.Modified "categories" ≠ none →
      d.eliminiate_changed_categories = .ok
        { Added := dictDel d.Added "categories"
          Removed := dictDel d.Removed "categories"
          Modified := dictDel d.Modified "categories" }) := by
  have hsome : ∀ k, dget d.Modified k ≠ none → (dget d.Modified k).isSome = true := by
    intro k hk
    cases hm : dget d.Modified k with
    | none => cases hk hm
    | some v => rfl
  refine ⟨?_, ?_, ?_⟩
  · intro h
    unfold Diff.eliminiate_changed_categories
    rw [h]
    simp only [Option.isSome_none, Bool.false_eq_true, if_false]
    rw [guarded_del_eq d.Added "categories", guarded_del_eq d.Removed "categories"]
  · intro h1 h2
    unfold Diff.eliminiate_changed_categories
    rw [hsome "modified" h1, h2]
    simp only [if_true, Option.isSome_none, Bool.false_eq_true, if_false]
    rfl
  · intro h1 h2
    unfold Diff.eliminiate_changed_categories
    rw [hsome "modified" h1, hsome "categories" h2]
    simp only [if_true]
    rw [guarded_del_eq d.Added "categories", guarded_del_eq d.Removed "categories"]

/-- Witness for C10 on two concrete diffs: `"modified"` absent leaves
Modified alone; `"modified"` present without `"categories"` raises. -/
theorem eliminiate_changed_categories_behavior_witness :
    (dget diffC10a.Modified "modified" = none ∧
      diffC10a.eliminiate_changed_categories = .ok
        { Added := dictDel diffC10a.Added "categories"
          Removed := dictDel diffC10a.Removed "categories"
          Modified := diffC10a.Modified }) ∧
    (dget diffC10b.Modified "modified" ≠ none ∧ dget diffC10b.Modified "categories" = none ∧
      isErr diffC10b.eliminiate_changed_categories = true) :=
  ⟨⟨by decide, (eliminiate_changed_categories_behavior diffC10a).1 (by decide)⟩,
    ⟨by decide, by decide,
      (eliminiate_changed_categories_behavior diffC10b).2.1 (by decide) (by decide)⟩⟩

end MdbDiff

